import Mathlib

/-
Shallow embedding of lazygit's integration-test input driver
(pkg/integration/components/input.go) and the parts of its collaborators
that it depends on.  Pure computations (the per-attempt match scan, the
press-count computation) are translated as Lean functions; the effectful
surface (key presses sent to the GUI driver, waits, assertions) is
modelled as an explicit event trace; the asynchronously redrawing UI is
modelled as a time-indexed sequence of snapshots, one observation per
driver query.
-/

namespace LazygitInput

/-- Matcher: a predicate over one line of rendered text together with a
descriptive name used in diagnostics.  `test` returns a pair
`(matched, detail)` mirroring the Go contract `test(line) (bool, string)`;
`NavigateToListItem` discards the detail component. -/
structure Matcher where
  test : String → Bool × String
  name : String

/-- Modelled from the spec: the `Contains` matcher constructor (its source
file is not part of the embedded sources; the spec describes matchers as
named pure predicates, substring containment being one policy).  The
predicate holds when `text` occurs as a contiguous substring of the line. -/
def Contains (text : String) : Matcher :=
  { test := fun line => (decide (List.IsInfix text.toList line.toList), "")
    name := text }

/-- Snapshot of the focused list view at one instant: the rendered lines
(`view.ViewBufferLines()`) and the selected line index
(`view.SelectedLineIdx()`, a machine int in Go, embedded as `Int`). -/
structure Snapshot where
  lines : List String
  selectedLineIdx : Int
deriving DecidableEq

/-- Directional key press emitted by the navigation loops: `NextItem`
(down) or `PreviousItem` (up). -/
inductive Dir where
  | next
  | prev
deriving DecidableEq

/-- Accumulator-passing translation of the Go scan loop inside
`NavigateToListItem`:
`matchIndex = -1; for i, line := range lines { if ok { matches = append(matches, line); matchIndex = i } }`.
The accumulator holds `(matches, matchIndex)`; `i` is the index of the
head of the remaining list. -/
def scanAux (matcher : Matcher) : List String → Nat → List String × Int → List String × Int
  | [], _, acc => acc
  | line :: rest, i, acc =>
      scanAux matcher rest (i + 1)
        (if (matcher.test line).fst then (acc.fst ++ [line], Int.ofNat i) else acc)

/-- Runs the scan loop from index 0 with the Go initial state
`matches = nil, matchIndex = -1`. -/
def scanMatches (matcher : Matcher) (lines : List String) : List String × Int :=
  scanAux matcher lines 0 ([], -1)

/-- Per-attempt check passed to `assertWithRetries` inside
`NavigateToListItem`: scans the visible lines and reports multiplicity
failure, absence failure, or success, with the exact reason strings the
Go code formats. -/
def attemptCheck (matcher : Matcher) (lines : List String) : Bool × String :=
  let ms := scanMatches matcher lines
  if ms.fst.length > 1 then
    (false,
      "Found " ++ toString ms.fst.length ++ " matches for `" ++ matcher.name
        ++ "`, expected only a single match. Lines:\n"
        ++ String.intercalate "\n" ms.fst)
  else if ms.fst.length = 0 then
    (false, "Could not find item matching: " ++ matcher.name)
  else
    (true, "")

/-- Modelled from the spec: the Retrying Poll Primitive
(`Assert.assertWithRetries`, whose source file is not among the embedded
sources).  It re-runs the check up to a bounded attempt budget and, on
exhaustion, fails with the last recorded failure reason.  Attempts are
indexed by a time counter `t` so that each attempt observes the
environment at a distinct instant; on success it returns the time of the
successful attempt. -/
def retryPoll (check : Nat → Bool × String) : Nat → Nat → String → Except String Nat
  | _, 0, lastReason => Except.error lastReason
  | t, n + 1, _ =>
      if (check t).fst then Except.ok t
      else retryPoll check (t + 1) n (check t).snd

/-- Translation of the Go loop
`for i := selectedLineIdx; i < matchIndex; i++ { self.NextItem() }`:
one `next` press per iteration. -/
def nextLoop (i matchIndex : Int) : List Dir :=
  if h : i < matchIndex then Dir.next :: nextLoop (i + 1) matchIndex else []
termination_by (matchIndex - i).toNat
decreasing_by omega

/-- Translation of the Go loop
`for i := selectedLineIdx; i > matchIndex; i-- { self.PreviousItem() }`:
one `prev` press per iteration. -/
def prevLoop (i matchIndex : Int) : List Dir :=
  if h : i > matchIndex then Dir.prev :: prevLoop (i - 1) matchIndex else []
termination_by (i - matchIndex).toNat
decreasing_by omega

/-- The branch structure after the poll in `NavigateToListItem`: equal
indices press nothing, a lower selection presses `NextItem` up to the
match, a higher selection presses `PreviousItem` down to it. -/
def navDirs (selectedLineIdx matchIndex : Int) : List Dir :=
  if selectedLineIdx = matchIndex then []
  else if selectedLineIdx < matchIndex then nextLoop selectedLineIdx matchIndex
  else prevLoop selectedLineIdx matchIndex

/-- Core of `NavigateToListItem` over a time-indexed environment: poll
(each attempt `t` reads `ViewBufferLines` of the snapshot at time `t`)
until the per-attempt check succeeds; then read `SelectedLineIdx` — a
separate, later driver query, observing the snapshot at time `t + 1` —
and emit the directional presses.  The match index of the successful
attempt is recomputed from that attempt's lines, which coincides with the
value the Go closure captured, since the scan is a pure function of the
lines. -/
def navigateToListItem (matcher : Matcher) (env : Nat → Snapshot) (budget : Nat) :
    Except String (List Dir) :=
  match retryPoll (fun t => attemptCheck matcher (env t).lines) 0 budget "" with
  | Except.error r => Except.error r
  | Except.ok t =>
      Except.ok (navDirs (env (t + 1)).selectedLineIdx (scanMatches matcher (env t).lines).snd)

/-- Follows the spec's words, for comparison with `navigateToListItem`:
the selected-line index is taken from the same snapshot that produced the
unique match (one combined query), never from a separate later read. -/
def navigateToListItemSpecAtomic (matcher : Matcher) (env : Nat → Snapshot) (budget : Nat) :
    Except String (List Dir) :=
  match retryPoll (fun t => attemptCheck matcher (env t).lines) 0 budget "" with
  | Except.error r => Except.error r
  | Except.ok t =>
      Except.ok (navDirs (env t).selectedLineIdx (scanMatches matcher (env t).lines).snd)

/-- Modelled from the spec: each directional press moves the selection by
exactly one position ("the selection advances by exactly one position at
a time").  Folding this over the emitted presses gives the final
selection. -/
def applyDir (sel : Int) : Dir → Int
  | Dir.next => sel + 1
  | Dir.prev => sel - 1

/-- Subset of `config.KeybindingConfig.Universal` used by input.go:
symbolic action names resolved to literal key strings, plus the
`JumpToBlock` family of panel-switch keys (a Go slice). -/
structure KeybindingUniversal where
  Confirm : String
  Return : String
  Select : String
  NextItem : String
  PrevItem : String
  JumpToBlock : List String
  CreateRebaseOptionsMenu : String
  TogglePanel : String
deriving DecidableEq

/-- Subset of `config.KeybindingConfig` used by input.go. -/
structure KeybindingConfig where
  Universal : KeybindingUniversal
deriving DecidableEq

/-- The `Input` facade's own state: the keybinding table and the
process-wide settle delay (`pushKeyDelay`, milliseconds, a Go int).  The
GUI driver and the assert helper are modelled as the event trace each
operation produces. -/
structure Input where
  keys : KeybindingConfig
  pushKeyDelay : Int
deriving DecidableEq

/-- Assertion calls the facade makes on the `Assert` collaborator.
Matcher-based assertions are recorded by the matcher's diagnostic name. -/
inductive AssertionEv where
  | inListContext
  | inConfirm
  | inPrompt
  | inMenu
  | currentWindowName (name : String)
  | currentViewName (name : String)
  | currentViewTitle (matcherName : String)
  | currentViewContent (matcherName : String)
  | selectedLine (matcherName : String)
deriving DecidableEq

/-- One observable step of a facade operation: a sleep, a key event
injected into the GUI driver, or an assertion on displayed state. -/
inductive Event where
  | wait (ms : Int)
  | pressKey (key : String)
  | assertEv (a : AssertionEv)
deriving DecidableEq

/-- Recognises key-press events. -/
def isPress : Event → Bool
  | Event.pressKey _ => true
  | _ => false

/-- `Input.Wait`: sleep for the given number of milliseconds. -/
def Input.Wait (_self : Input) (milliseconds : Int) : List Event :=
  [Event.wait milliseconds]

/-- Lower-case `Input.press`: the single place every key stroke goes
through — wait for the configured `pushKeyDelay`, then
`gui.PressKey(keyStr)`. -/
def Input.press (self : Input) (keyStr : String) : List Event :=
  self.Wait self.pushKeyDelay ++ [Event.pressKey keyStr]

/-- `Input.Press`: presses each key string in order. -/
def Input.Press (self : Input) (keyStrs : List String) : List Event :=
  keyStrs.flatMap (fun keyStr => self.press keyStr)

/-- `Input.SwitchToStatusWindow`: presses `JumpToBlock[0]` then asserts
the current window is "status".  Go indexes the slice directly and would
abort on an out-of-range index; the embedding returns `none` there. -/
def Input.SwitchToStatusWindow (self : Input) : Option (List Event) :=
  (self.keys.Universal.JumpToBlock.get? 0).map (fun k =>
    self.press k ++ [Event.assertEv (AssertionEv.currentWindowName "status")])

/-- `Input.SwitchToFilesWindow`: presses `JumpToBlock[1]` then asserts
the current window is "files". -/
def Input.SwitchToFilesWindow (self : Input) : Option (List Event) :=
  (self.keys.Universal.JumpToBlock.get? 1).map (fun k =>
    self.press k ++ [Event.assertEv (AssertionEv.currentWindowName "files")])

/-- `Input.SwitchToBranchesWindow`: presses `JumpToBlock[2]` then asserts
the current window is "localBranches". -/
def Input.SwitchToBranchesWindow (self : Input) : Option (List Event) :=
  (self.keys.Universal.JumpToBlock.get? 2).map (fun k =>
    self.press k ++ [Event.assertEv (AssertionEv.currentWindowName "localBranches")])

/-- `Input.SwitchToCommitsWindow`: presses `JumpToBlock[3]` then asserts
the current window is "commits". -/
def Input.SwitchToCommitsWindow (self : Input) : Option (List Event) :=
  (self.keys.Universal.JumpToBlock.get? 3).map (fun k =>
    self.press k ++ [Event.assertEv (AssertionEv.currentWindowName "commits")])

/-- `Input.SwitchToStashWindow`: presses `JumpToBlock[4]` then asserts
the current window is "stash". -/
def Input.SwitchToStashWindow (self : Input) : Option (List Event) :=
  (self.keys.Universal.JumpToBlock.get? 4).map (fun k =>
    self.press k ++ [Event.assertEv (AssertionEv.currentWindowName "stash")])

/-- `Input.Type`: presses each character of the content in order
(Go ranges over the string's runes). -/
def Input.Type' (self : Input) (content : String) : List Event :=
  content.toList.flatMap (fun char => self.press (String.singleton char))

/-- `Input.Confirm`: presses the `Confirm` keybinding (enter). -/
def Input.Confirm (self : Input) : List Event :=
  self.press self.keys.Universal.Confirm

/-- `Input.Enter`: same as `Confirm` in the source. -/
def Input.Enter (self : Input) : List Event :=
  self.press self.keys.Universal.Confirm

/-- `Input.Cancel`: presses the `Return` keybinding (escape). -/
def Input.Cancel (self : Input) : List Event :=
  self.press self.keys.Universal.Return

/-- `Input.PrimaryAction`: presses the `Select` keybinding (space). -/
def Input.PrimaryAction (self : Input) : List Event :=
  self.press self.keys.Universal.Select

/-- `Input.NextItem`: presses the `NextItem` keybinding (down arrow). -/
def Input.NextItem (self : Input) : List Event :=
  self.press self.keys.Universal.NextItem

/-- `Input.PreviousItem`: presses the `PrevItem` keybinding (up arrow). -/
def Input.PreviousItem (self : Input) : List Event :=
  self.press self.keys.Universal.PrevItem

/-- `Input.ContinueMerge`: opens the rebase-options menu, asserts the
selected line contains "continue", then confirms. -/
def Input.ContinueMerge (self : Input) : List Event :=
  self.Press [self.keys.Universal.CreateRebaseOptionsMenu]
    ++ [Event.assertEv (AssertionEv.selectedLine (Contains "continue").name)]
    ++ self.Confirm

/-- `Input.ContinueRebase`: delegates to `ContinueMerge`. -/
def Input.ContinueRebase (self : Input) : List Event :=
  self.ContinueMerge

/-- Expands one directional press of the navigation loops into the
facade call it goes through (`NextItem` or `PreviousItem`). -/
def Input.dirTrace (self : Input) : Dir → List Event
  | Dir.next => self.NextItem
  | Dir.prev => self.PreviousItem

/-- Full trace of `Input.NavigateToListItem`: assert the context is
list-shaped, poll for the unique match, emit the directional presses,
and finally assert the selected line matches.  The poll itself only
reads; its driver queries leave no events in the trace. -/
def Input.NavigateToListItemTrace (self : Input) (matcher : Matcher)
    (env : Nat → Snapshot) (budget : Nat) : Except String (List Event) :=
  match navigateToListItem matcher env budget with
  | Except.error r => Except.error r
  | Except.ok dirs =>
      Except.ok ([Event.assertEv AssertionEv.inListContext]
        ++ dirs.flatMap (fun d => self.dirTrace d)
        ++ [Event.assertEv (AssertionEv.selectedLine matcher.name)])

/-- `Input.AcceptConfirmation`: asserts a confirmation modal with the
expected title and content is showing, then confirms. -/
def Input.AcceptConfirmation (self : Input) (title content : Matcher) : List Event :=
  [Event.assertEv AssertionEv.inConfirm,
   Event.assertEv (AssertionEv.currentViewTitle title.name),
   Event.assertEv (AssertionEv.currentViewContent content.name)]
    ++ self.Confirm

/-- `Input.DenyConfirmation`: asserts a confirmation modal with the
expected title and content is showing, then cancels. -/
def Input.DenyConfirmation (self : Input) (title content : Matcher) : List Event :=
  [Event.assertEv AssertionEv.inConfirm,
   Event.assertEv (AssertionEv.currentViewTitle title.name),
   Event.assertEv (AssertionEv.currentViewContent content.name)]
    ++ self.Cancel

/-- `Input.Prompt`: asserts a prompt with the expected title is showing,
types the text, then confirms. -/
def Input.Prompt (self : Input) (title : Matcher) (textToType : String) : List Event :=
  [Event.assertEv AssertionEv.inPrompt,
   Event.assertEv (AssertionEv.currentViewTitle title.name)]
    ++ self.Type' textToType
    ++ self.Confirm

/-- `Input.Typeahead`: asserts a prompt with the expected title, types
the text, toggles to the suggestions panel, asserts the first option,
then confirms. -/
def Input.Typeahead (self : Input) (title : Matcher) (textToType : String)
    (expectedFirstOption : Matcher) : List Event :=
  [Event.assertEv AssertionEv.inPrompt,
   Event.assertEv (AssertionEv.currentViewTitle title.name)]
    ++ self.Type' textToType
    ++ self.Press [self.keys.Universal.TogglePanel]
    ++ [Event.assertEv (AssertionEv.currentViewName "suggestions"),
        Event.assertEv (AssertionEv.selectedLine expectedFirstOption.name)]
    ++ self.Confirm

/-- `Input.Menu`: asserts a menu with the expected title is showing,
navigates to the option, then confirms. -/
def Input.Menu (self : Input) (title optionToSelect : Matcher)
    (env : Nat → Snapshot) (budget : Nat) : Except String (List Event) :=
  (self.NavigateToListItemTrace optionToSelect env budget).map (fun nav =>
    [Event.assertEv AssertionEv.inMenu,
     Event.assertEv (AssertionEv.currentViewTitle title.name)]
      ++ nav
      ++ self.Confirm)

/-- `Input.Alert`: asserts a list context with the expected title and
content, then confirms. -/
def Input.Alert (self : Input) (title content : Matcher) : List Event :=
  [Event.assertEv AssertionEv.inListContext,
   Event.assertEv (AssertionEv.currentViewTitle title.name),
   Event.assertEv (AssertionEv.currentViewContent content.name)]
    ++ self.Confirm

/-- Property the settle-delay design guarantees: every key-press event in
a trace is immediately preceded by a wait of the configured delay `d`. -/
def waitBeforeEachPress (d : Int) (tr : List Event) : Prop :=
  ∀ (i : Nat) (k : String), tr[i]? = some (Event.pressKey k) →
    1 ≤ i ∧ tr[i - 1]? = some (Event.wait d)

/-- Traces built from delay-press pairs and non-press events.  Every
trace a facade operation produces has this shape. -/
inductive Settled (d : Int) : List Event → Prop where
  | nil : Settled d []
  | press (k : String) (tr : List Event) :
      Settled d tr → Settled d (Event.wait d :: Event.pressKey k :: tr)
  | skip (e : Event) (tr : List Event) :
      isPress e = false → Settled d tr → Settled d (e :: tr)

/-- Property the modal flows guarantee: the trace has a press-free prefix
containing all of the required assertion events, so every required
assertion happens before any key press. -/
def assertsBeforeAnyPress (required : List Event) (tr : List Event) : Prop :=
  ∃ pre tail, tr = pre ++ tail ∧ (∀ e ∈ pre, isPress e = false) ∧ ∀ a ∈ required, a ∈ pre

/-- Extracts the key string of a press event. -/
def pressKeyOf : Event → Option String
  | Event.pressKey k => some k
  | _ => none

/-- Concrete matcher for evaluation: matches the exact line "b". -/
def mB : Matcher :=
  { test := fun line => (line == "b", ""), name := "b" }

/-- Concrete snapshot: three lines, selection on index 0. -/
def snapA : Snapshot :=
  { lines := ["a", "b", "c"], selectedLineIdx := 0 }

/-- Concrete snapshot: three lines, selection already on the "b" line. -/
def snapB : Snapshot :=
  { lines := ["a", "b", "c"], selectedLineIdx := 1 }

/-- Concrete environment whose selected index changes between the
snapshot observed by the successful poll attempt (time 0, selection 0)
and the snapshot observed by the subsequent separate selected-index read
(time 1 onwards, selection 2).  The lines never change. -/
def envC : Nat → Snapshot := fun t =>
  if t = 0 then { lines := ["a", "b", "c"], selectedLineIdx := 0 }
  else { lines := ["a", "b", "c"], selectedLineIdx := 2 }

/-- Concrete keybinding table with a five-entry `JumpToBlock` family. -/
def keysA : KeybindingConfig :=
  { Universal :=
    { Confirm := "<enter>"
      Return := "<esc>"
      Select := "<space>"
      NextItem := "<down>"
      PrevItem := "<up>"
      JumpToBlock := ["1", "2", "3", "4", "5"]
      CreateRebaseOptionsMenu := "m"
      TogglePanel := "<tab>" } }

/-- Concrete facade state over `keysA` with a 10ms settle delay. -/
def inputA : Input :=
  { keys := keysA, pushKeyDelay := 10 }

/-- Concrete keybinding table whose `JumpToBlock` family has exactly four
entries. -/
def keysFour : KeybindingConfig :=
  { Universal :=
    { Confirm := "<enter>"
      Return := "<esc>"
      Select := "<space>"
      NextItem := "<down>"
      PrevItem := "<up>"
      JumpToBlock := ["1", "2", "3", "4"]
      CreateRebaseOptionsMenu := "m"
      TogglePanel := "<tab>" } }

/-- Concrete facade state over `keysFour`. -/
def inputFour : Input :=
  { keys := keysFour, pushKeyDelay := 10 }

/-- The scan loop's matches component collects exactly the matching
lines, in order, appended to the accumulator. -/
theorem scanAux_fst (matcher : Matcher) :
    ∀ (ls : List String) (i : Nat) (acc : List String × Int),
      (scanAux matcher ls i acc).fst
        = acc.fst ++ ls.filter (fun l => (matcher.test l).fst) := by
  intro ls
  induction ls with
  | nil => intro i acc; simp [scanAux]
  | cons line rest ih =>
      intro i acc
      by_cases h : (matcher.test line).fst = true
      · simp [scanAux, h, ih, List.filter_cons]
      · simp [scanAux, h, ih, List.filter_cons]

/-- The scan loop leaves the accumulator untouched when no line matches. -/
theorem scanAux_no_match (matcher : Matcher) :
    ∀ (ls : List String) (i : Nat) (acc : List String × Int),
      (∀ l ∈ ls, (matcher.test l).fst = false) →
      scanAux matcher ls i acc = acc := by
  intro ls
  induction ls with
  | nil => intro i acc _; rfl
  | cons line rest ih =>
      intro i acc h
      have h0 : (matcher.test line).fst = false := h line (by simp)
      rw [scanAux, if_neg (by simp [h0])]
      exact ih (i + 1) acc (fun l hl => h l (by simp [hl]))

/-- With exactly one matching line at offset `j`, the scan loop yields
that single line and the absolute index `i + j`. -/
theorem scanAux_unique (matcher : Matcher) :
    ∀ (ls : List String) (j : Nat) (hj : j < ls.length) (i : Nat) (acc : List String × Int),
      (matcher.test (ls.get ⟨j, hj⟩)).fst = true →
      (∀ k (hk : k < ls.length), k ≠ j → (matcher.test (ls.get ⟨k, hk⟩)).fst = false) →
      scanAux matcher ls i acc = (acc.fst ++ [ls.get ⟨j, hj⟩], Int.ofNat (i + j)) := by
  intro ls
  induction ls with
  | nil => intro j hj; exact absurd hj (by simp)
  | cons line rest ih =>
      intro j hj i acc hmatch huniq
      cases j with
      | zero =>
          have hline : (matcher.test line).fst = true := by simpa using hmatch
          have hrest : ∀ l ∈ rest, (matcher.test l).fst = false := by
            intro l hl
            obtain ⟨⟨k, hk⟩, rfl⟩ := List.mem_iff_get.mp hl
            have hk' : k + 1 < (line :: rest).length := by simpa using Nat.succ_lt_succ hk
            have := huniq (k + 1) hk' (by omega)
            simpa using this
          rw [scanAux, if_pos (by simp [hline])]
          rw [scanAux_no_match matcher rest (i + 1) _ hrest]
          simp
      | succ j' =>
          have hline : (matcher.test line).fst = false := by
            have := huniq 0 (by simp) (by omega)
            simpa using this
          rw [scanAux, if_neg (by simp [hline])]
          have hj' : j' < rest.length := by
            have := hj; simp at this; omega
          have hrest : ∀ k (hk : k < rest.length), k ≠ j' →
              (matcher.test (rest.get ⟨k, hk⟩)).fst = false := by
            intro k hk hkj
            have hk' : k + 1 < (line :: rest).length := by simpa using Nat.succ_lt_succ hk
            have := huniq (k + 1) hk' (by omega)
            simpa using this
          have hmatch' : (matcher.test (rest.get ⟨j', hj'⟩)).fst = true := by
            simpa using hmatch
          rw [ih j' hj' (i + 1) acc hmatch' hrest]
          refine congrArg₂ Prod.mk ?_ ?_
          · simp
          · simp [Int.ofNat]; omega

/-- With exactly one matching line at index `m`, the scan produces that
line and `matchIndex = m`. -/
theorem scanMatches_unique (matcher : Matcher) (lines : List String) (m : Nat)
    (hm : m < lines.length)
    (hmatch : (matcher.test (lines.get ⟨m, hm⟩)).fst = true)
    (huniq : ∀ k (hk : k < lines.length), k ≠ m →
      (matcher.test (lines.get ⟨k, hk⟩)).fst = false) :
    scanMatches matcher lines = ([lines.get ⟨m, hm⟩], Int.ofNat m) := by
  unfold scanMatches
  rw [scanAux_unique matcher lines m hm 0 ([], -1) hmatch huniq]
  simp

/-- With exactly one matching line, the per-attempt check succeeds. -/
theorem attemptCheck_unique (matcher : Matcher) (lines : List String) (m : Nat)
    (hm : m < lines.length)
    (hmatch : (matcher.test (lines.get ⟨m, hm⟩)).fst = true)
    (huniq : ∀ k (hk : k < lines.length), k ≠ m →
      (matcher.test (lines.get ⟨k, hk⟩)).fst = false) :
    attemptCheck matcher lines = (true, "") := by
  unfold attemptCheck
  rw [scanMatches_unique matcher lines m hm hmatch huniq]
  simp

/-- The next-item loop emits one `next` press per unit of distance. -/
theorem nextLoop_eq_replicate :
    ∀ (n : Nat) (i m : Int), (m - i).toNat = n →
      nextLoop i m = List.replicate n Dir.next := by
  intro n
  induction n with
  | zero =>
      intro i m h
      rw [nextLoop, dif_neg (by omega)]
      simp
  | succ k ih =>
      intro i m h
      rw [nextLoop, dif_pos (by omega)]
      rw [ih (i + 1) m (by omega)]
      simp [List.replicate_succ]

/-- Closed form of the next-item loop. -/
theorem nextLoop_replicate (i m : Int) :
    nextLoop i m = List.replicate (m - i).toNat Dir.next :=
  nextLoop_eq_replicate (m - i).toNat i m rfl

/-- The previous-item loop emits one `prev` press per unit of distance. -/
theorem prevLoop_eq_replicate :
    ∀ (n : Nat) (i m : Int), (i - m).toNat = n →
      prevLoop i m = List.replicate n Dir.prev := by
  intro n
  induction n with
  | zero =>
      intro i m h
      rw [prevLoop, dif_neg (by omega)]
      simp
  | succ k ih =>
      intro i m h
      rw [prevLoop, dif_pos (by omega)]
      rw [ih (i - 1) m (by omega)]
      simp [List.replicate_succ]

/-- Closed form of the previous-item loop. -/
theorem prevLoop_replicate (i m : Int) :
    prevLoop i m = List.replicate (i - m).toNat Dir.prev :=
  prevLoop_eq_replicate (i - m).toNat i m rfl

/-- Folding the one-step selection semantics over `n` next presses
advances the selection by `n`. -/
theorem foldl_applyDir_next :
    ∀ (n : Nat) (s : Int), (List.replicate n Dir.next).foldl applyDir s = s + n := by
  intro n
  induction n with
  | zero => intro s; simp
  | succ k ih =>
      intro s
      rw [List.replicate_succ, List.foldl_cons, ih]
      simp [applyDir]
      omega

/-- Folding the one-step selection semantics over `n` previous presses
moves the selection back by `n`. -/
theorem foldl_applyDir_prev :
    ∀ (n : Nat) (s : Int), (List.replicate n Dir.prev).foldl applyDir s = s - n := by
  intro n
  induction n with
  | zero => intro s; simp
  | succ k ih =>
      intro s
      rw [List.replicate_succ, List.foldl_cons, ih]
      simp [applyDir]
      omega

/-- A `Settled` trace waits the configured delay immediately before each
key press. -/
theorem waitBeforeEachPress_of_settled {d : Int} {tr : List Event}
    (h : Settled d tr) : waitBeforeEachPress d tr := by
  induction h with
  | nil =>
      intro i k hik
      simp at hik
  | press k' tr' h ih =>
      intro i k hik
      match i with
      | 0 => simp at hik
      | 1 => exact ⟨by omega, by simp⟩
      | (n + 2) =>
          have hik' : tr'[n]? = some (Event.pressKey k) := by simpa using hik
          obtain ⟨h1, h2⟩ := ih n k hik'
          obtain ⟨p, rfl⟩ : ∃ p, n = p + 1 := ⟨n - 1, by omega⟩
          refine ⟨by omega, ?_⟩
          simpa using h2
  | skip e tr' he h ih =>
      intro i k hik
      match i with
      | 0 =>
          simp at hik
          rw [hik] at he
          simp [isPress] at he
      | (n + 1) =>
          have hik' : tr'[n]? = some (Event.pressKey k) := by simpa using hik
          obtain ⟨h1, h2⟩ := ih n k hik'
          obtain ⟨p, rfl⟩ : ∃ p, n = p + 1 := ⟨n - 1, by omega⟩
          refine ⟨by omega, ?_⟩
          simpa using h2

/-- Concatenation preserves `Settled`. -/
theorem settled_append {d : Int} {t1 t2 : List Event}
    (h1 : Settled d t1) (h2 : Settled d t2) : Settled d (t1 ++ t2) := by
  induction h1 with
  | nil => simpa using h2
  | press k tr h ih => exact Settled.press k _ ih
  | skip e tr he h ih => exact Settled.skip e _ he ih

/-- A trace with no press events is `Settled` for any delay. -/
theorem settled_of_no_press {d : Int} :
    ∀ {tr : List Event}, (∀ e ∈ tr, isPress e = false) → Settled d tr := by
  intro tr
  induction tr with
  | nil => intro _; exact Settled.nil
  | cons e rest ih =>
      intro h
      exact Settled.skip e rest (h e (by simp)) (ih (fun x hx => h x (by simp [hx])))

/-- Flattening preserves `Settled` when every block is `Settled`. -/
theorem settled_flatMap {d : Int} {α : Type} {l : List α} {f : α → List Event}
    (h : ∀ a ∈ l, Settled d (f a)) : Settled d (l.flatMap f) := by
  induction l with
  | nil => exact Settled.nil
  | cons a rest ih =>
      rw [List.flatMap_cons]
      exact settled_append (h a (by simp)) (ih (fun b hb => h b (by simp [hb])))

/-- The single press primitive is `Settled` for the facade's delay. -/
theorem settled_press (self : Input) (k : String) :
    Settled self.pushKeyDelay (self.press k) :=
  Settled.press k [] Settled.nil

/-- Every directional facade press is `Settled`. -/
theorem settled_dirTrace (self : Input) (dir : Dir) :
    Settled self.pushKeyDelay (self.dirTrace dir) := by
  cases dir
  · exact settled_press self _
  · exact settled_press self _

/-- Each directional press block contains exactly one key-press event. -/
theorem countP_flatMap_dirTrace (self : Input) (dirs : List Dir) :
    (dirs.flatMap (fun d => self.dirTrace d)).countP isPress = dirs.length := by
  induction dirs with
  | nil => simp
  | cons d rest ih =>
      rw [List.flatMap_cons, List.countP_append, ih]
      cases d <;>
        · simp [Input.dirTrace, Input.NextItem, Input.PreviousItem, Input.press,
            Input.Wait, isPress, List.countP_cons]
          omega

/-- Full characterization of the post-poll press computation: press count
equals the absolute distance, presses are all `next` (resp. all `prev`)
when the selection is below (resp. above) the match, and under the
one-step selection semantics the presses land exactly on the match. -/
theorem navDirs_spec (s mi : Int) :
    (navDirs s mi).length = (mi - s).natAbs ∧
    (s < mi → navDirs s mi = List.replicate (mi - s).toNat Dir.next) ∧
    (mi < s → navDirs s mi = List.replicate (s - mi).toNat Dir.prev) ∧
    (navDirs s mi).foldl applyDir s = mi := by
  rcases lt_trichotomy s mi with hlt | heq | hgt
  · have hd : navDirs s mi = List.replicate (mi - s).toNat Dir.next := by
      unfold navDirs
      rw [if_neg (by omega), if_pos hlt, nextLoop_replicate]
    refine ⟨?_, fun _ => hd, fun h => absurd h (by omega), ?_⟩
    · rw [hd]; simp; omega
    · rw [hd, foldl_applyDir_next]; omega
  · have hd : navDirs s mi = [] := by
      unfold navDirs
      rw [if_pos heq]
    refine ⟨?_, fun h => absurd h (by omega), fun h => absurd h (by omega), ?_⟩
    · rw [hd]; simp; omega
    · rw [hd]; simpa using heq
  · have hd : navDirs s mi = List.replicate (s - mi).toNat Dir.prev := by
      unfold navDirs
      rw [if_neg (by omega), if_neg (by omega), prevLoop_replicate]
    refine ⟨?_, fun h => absurd h (by omega), fun _ => hd, ?_⟩
    · rw [hd]; simp; omega
    · rw [hd, foldl_applyDir_prev]; omega

/-- Over a constant environment showing exactly one match at index `m`,
the poll succeeds on its first attempt and `navigateToListItem` emits the
presses computed from the snapshot's selected index and `m`. -/
theorem navigateToListItem_const (matcher : Matcher) (snap : Snapshot) (b : Nat) (m : Nat)
    (hm : m < snap.lines.length)
    (hmatch : (matcher.test (snap.lines.get ⟨m, hm⟩)).fst = true)
    (huniq : ∀ k (hk : k < snap.lines.length), k ≠ m →
      (matcher.test (snap.lines.get ⟨k, hk⟩)).fst = false) :
    navigateToListItem matcher (fun _ => snap) (b + 1)
      = Except.ok (navDirs snap.selectedLineIdx (Int.ofNat m)) := by
  have hcheck : attemptCheck matcher snap.lines = (true, "") :=
    attemptCheck_unique matcher snap.lines m hm hmatch huniq
  have hscan := scanMatches_unique matcher snap.lines m hm hmatch huniq
  unfold navigateToListItem
  rw [retryPoll]
  simp [hcheck, hscan]

/-- `Input.Press` is `Settled`. -/
theorem settled_Press (self : Input) (keyStrs : List String) :
    Settled self.pushKeyDelay (self.Press keyStrs) :=
  settled_flatMap (fun a _ => settled_press self a)

/-- `Input.Type` is `Settled`. -/
theorem settled_Type' (self : Input) (content : String) :
    Settled self.pushKeyDelay (self.Type' content) :=
  settled_flatMap (fun a _ => settled_press self (String.singleton a))

/-- A bare assertion event is `Settled`. -/
theorem settled_assert1 {d : Int} (a : AssertionEv) :
    Settled d [Event.assertEv a] :=
  settled_of_no_press (by simp [isPress])

/-- The navigation trace, when navigation succeeds, is `Settled`. -/
theorem settled_navigateTrace (self : Input) (matcher : Matcher)
    (env : Nat → Snapshot) (budget : Nat) (tr : List Event)
    (htr : self.NavigateToListItemTrace matcher env budget = Except.ok tr) :
    Settled self.pushKeyDelay tr := by
  unfold Input.NavigateToListItemTrace at htr
  cases hN : navigateToListItem matcher env budget with
  | error r => rw [hN] at htr; exact absurd htr (by simp)
  | ok dirs =>
      rw [hN] at htr
      simp at htr
      rw [← htr]
      refine settled_append (settled_assert1 _) (settled_append ?_ (settled_assert1 _))
      exact settled_flatMap (fun d _ => settled_dirTrace self d)

/-- The reason reported for multiple matches is never the reason reported
for a missing match: the two format strings differ in their first
character, whatever follows. -/
theorem found_ne_could_not_find (x n : String) :
    ("Found " ++ x) ≠ ("Could not find item matching: " ++ n) := by
  intro hEq
  have h2 : ("Found " ++ x).data = ("Could not find item matching: " ++ n).data := by
    rw [hEq]
  rw [String.data_append, String.data_append] at h2
  have hf : "Found ".data = ['F', 'o', 'u', 'n', 'd', ' '] := rfl
  have hc : "Could not find item matching: ".data
      = ['C', 'o', 'u', 'l', 'd', ' ', 'n', 'o', 't', ' ', 'f', 'i', 'n', 'd', ' ',
         'i', 't', 'e', 'm', ' ', 'm', 'a', 't', 'c', 'h', 'i', 'n', 'g', ':', ' '] := rfl
  rw [hf, hc] at h2
  simp only [List.cons_append] at h2
  injection h2 with h3 _
  exact absurd h3 (by decide)

/-- C3: whenever two or more visible lines satisfy the matcher, the
per-attempt check inside `NavigateToListItem` fails, and its reason
states the number of matches and lists each matching line; that reason is
distinct from the zero-match reason. -/
theorem attemptCheck_multiple_matches_fails (matcher : Matcher) (lines : List String)
    (h : 2 ≤ (lines.filter (fun l => (matcher.test l).fst)).length) :
    (attemptCheck matcher lines).fst = false ∧
    (attemptCheck matcher lines).snd
      = "Found " ++ toString (lines.filter (fun l => (matcher.test l).fst)).length
          ++ " matches for `" ++ matcher.name
          ++ "`, expected only a single match. Lines:\n"
          ++ String.intercalate "\n" (lines.filter (fun l => (matcher.test l).fst)) ∧
    (attemptCheck matcher lines).snd ≠ "Could not find item matching: " ++ matcher.name := by
  have hfst : (scanMatches matcher lines).fst
      = lines.filter (fun l => (matcher.test l).fst) := by
    unfold scanMatches
    rw [scanAux_fst]
    simp
  have hgt : (scanMatches matcher lines).fst.length > 1 := by
    rw [hfst]; omega
  have hval : attemptCheck matcher lines
      = (false,
          "Found " ++ toString (lines.filter (fun l => (matcher.test l).fst)).length
            ++ " matches for `" ++ matcher.name
            ++ "`, expected only a single match. Lines:\n"
            ++ String.intercalate "\n" (lines.filter (fun l => (matcher.test l).fst))) := by
    unfold attemptCheck
    rw [if_pos hgt, hfst]
  refine ⟨by rw [hval], by rw [hval], ?_⟩
  rw [hval]
  exact found_ne_could_not_find _ _

/-- C3 witness: the list ["b", "b"] has two lines matching `mB`. -/
theorem attemptCheck_multiple_matches_fails_witness :
    2 ≤ (["b", "b"].filter (fun l => (mB.test l).fst)).length ∧
    (attemptCheck mB ["b", "b"]).fst = false :=
  ⟨by decide, (attemptCheck_multiple_matches_fails mB ["b", "b"] (by decide)).1⟩

/-- C4: whenever zero visible lines satisfy the matcher, the per-attempt
check inside `NavigateToListItem` fails with the "could not find" reason
naming the matcher. -/
theorem attemptCheck_no_match_fails (matcher : Matcher) (lines : List String)
    (h : ∀ l ∈ lines, (matcher.test l).fst = false) :
    attemptCheck matcher lines
      = (false, "Could not find item matching: " ++ matcher.name) := by
  have hscan : scanMatches matcher lines = ([], -1) :=
    scanAux_no_match matcher lines 0 ([], -1) h
  unfold attemptCheck
  rw [hscan]
  simp

/-- C4 witness: no line of ["a", "c"] matches `mB`. -/
theorem attemptCheck_no_match_fails_witness :
    (∀ l ∈ ["a", "c"], (mB.test l).fst = false) ∧
    attemptCheck mB ["a", "c"]
      = (false, "Could not find item matching: " ++ mB.name) :=
  ⟨by decide, attemptCheck_no_match_fails mB ["a", "c"] (by decide)⟩

/-- C1: over a snapshot with exactly one line matching the matcher at
index `m` and selection at index `s`, `NavigateToListItem` succeeds,
issues exactly |m - s| directional presses — all "next item" when
`s < m`, all "previous item" when `s > m` — and, with each press moving
the selection by one position, terminates with the selection at `m`; its
full trace contains exactly |m - s| key-press events. -/
theorem navigateToListItem_unique_match_presses (matcher : Matcher) (snap : Snapshot)
    (budget : Nat) (m : Nat)
    (hb : 1 ≤ budget)
    (hm : m < snap.lines.length)
    (hmatch : (matcher.test (snap.lines.get ⟨m, hm⟩)).fst = true)
    (huniq : ∀ k (hk : k < snap.lines.length), k ≠ m →
      (matcher.test (snap.lines.get ⟨k, hk⟩)).fst = false)
    (_hs0 : 0 ≤ snap.selectedLineIdx)
    (_hsN : snap.selectedLineIdx < snap.lines.length) :
    ∃ dirs, navigateToListItem matcher (fun _ => snap) budget = Except.ok dirs ∧
      dirs.length = ((m : Int) - snap.selectedLineIdx).natAbs ∧
      (snap.selectedLineIdx < (m : Int) →
        dirs = List.replicate ((m : Int) - snap.selectedLineIdx).toNat Dir.next) ∧
      ((m : Int) < snap.selectedLineIdx →
        dirs = List.replicate (snap.selectedLineIdx - (m : Int)).toNat Dir.prev) ∧
      dirs.foldl applyDir snap.selectedLineIdx = (m : Int) ∧
      (∀ self : Input, ∃ tr,
        self.NavigateToListItemTrace matcher (fun _ => snap) budget = Except.ok tr ∧
        tr.countP isPress = ((m : Int) - snap.selectedLineIdx).natAbs) := by
  obtain ⟨b, rfl⟩ : ∃ b, budget = b + 1 := ⟨budget - 1, by omega⟩
  have hnav := navigateToListItem_const matcher snap b m hm hmatch huniq
  obtain ⟨hlen, hnext, hprev, hfold⟩ := navDirs_spec snap.selectedLineIdx (Int.ofNat m)
  refine ⟨navDirs snap.selectedLineIdx (Int.ofNat m), hnav, hlen, hnext, hprev, hfold, ?_⟩
  intro self
  refine ⟨[Event.assertEv AssertionEv.inListContext]
      ++ (navDirs snap.selectedLineIdx (Int.ofNat m)).flatMap (fun d => self.dirTrace d)
      ++ [Event.assertEv (AssertionEv.selectedLine matcher.name)], ?_, ?_⟩
  · unfold Input.NavigateToListItemTrace
    rw [hnav]
  · rw [List.countP_append, List.countP_append, countP_flatMap_dirTrace, hlen]
    simp [isPress]

/-- C1 witness: snapshot ["a", "b", "c"] with selection 0, unique match
"b" at index 1; navigation succeeds with exactly one press. -/
theorem navigateToListItem_unique_match_presses_witness :
    (1 : Nat) < snapA.lines.length ∧
    (∃ dirs, navigateToListItem mB (fun _ => snapA) 1 = Except.ok dirs ∧
      dirs.length = 1) := by
  refine ⟨by decide, ?_⟩
  obtain ⟨dirs, h1, h2, -⟩ :=
    navigateToListItem_unique_match_presses mB snapA 1 1 (by decide) (by decide)
      (by decide) (by decide) (by decide) (by decide)
  refine ⟨dirs, h1, ?_⟩
  rw [h2]
  decide

/-- C5: over a snapshot whose selected index equals the unique match
index, `NavigateToListItem` succeeds and issues zero key presses: the
press list is empty and the full trace has no key-press event. -/
theorem navigateToListItem_noop (matcher : Matcher) (snap : Snapshot)
    (budget : Nat) (m : Nat)
    (hb : 1 ≤ budget)
    (hm : m < snap.lines.length)
    (hmatch : (matcher.test (snap.lines.get ⟨m, hm⟩)).fst = true)
    (huniq : ∀ k (hk : k < snap.lines.length), k ≠ m →
      (matcher.test (snap.lines.get ⟨k, hk⟩)).fst = false)
    (hsel : snap.selectedLineIdx = (m : Int)) :
    navigateToListItem matcher (fun _ => snap) budget = Except.ok [] ∧
    (∀ self : Input, ∃ tr,
      self.NavigateToListItemTrace matcher (fun _ => snap) budget = Except.ok tr ∧
      tr.countP isPress = 0) := by
  obtain ⟨b, rfl⟩ : ∃ b, budget = b + 1 := ⟨budget - 1, by omega⟩
  have hnav := navigateToListItem_const matcher snap b m hm hmatch huniq
  have hdirs : navDirs snap.selectedLineIdx (Int.ofNat m) = [] := by
    unfold navDirs
    rw [if_pos (by rw [hsel]; rfl)]
  rw [hdirs] at hnav
  refine ⟨hnav, ?_⟩
  intro self
  refine ⟨[Event.assertEv AssertionEv.inListContext]
      ++ ([] : List Dir).flatMap (fun d => self.dirTrace d)
      ++ [Event.assertEv (AssertionEv.selectedLine matcher.name)], ?_, ?_⟩
  · unfold Input.NavigateToListItemTrace
    rw [hnav]
  · simp [isPress]

/-- C5 witness: snapshot ["a", "b", "c"] with selection already at the
unique "b" match (index 1). -/
theorem navigateToListItem_noop_witness :
    snapB.selectedLineIdx = ((1 : Nat) : Int) ∧
    navigateToListItem mB (fun _ => snapB) 1 = Except.ok [] :=
  ⟨by decide,
    (navigateToListItem_noop mB snapB 1 1 (by decide) (by decide) (by decide)
      (by decide) (by decide)).1⟩

/-- A successful panel-switch trace (one press, one window assertion) is
`Settled`. -/
theorem settled_switch_aux (self : Input) (i : Nat) (name : String) (tr : List Event)
    (htr : (self.keys.Universal.JumpToBlock.get? i).map (fun k =>
        self.press k ++ [Event.assertEv (AssertionEv.currentWindowName name)]) = some tr) :
    Settled self.pushKeyDelay tr := by
  cases hg : self.keys.Universal.JumpToBlock.get? i with
  | none => rw [hg] at htr; exact absurd htr (by simp)
  | some k =>
      rw [hg] at htr
      simp at htr
      rw [← htr]
      exact settled_append (settled_press self k) (settled_assert1 _)

/-- C2 counterexample: `NavigateToListItem` reads the selected index in a
separate driver query after the poll, not from the matched snapshot.  In
the environment `envC` the matched snapshot (time 0) has selection 0 and
match index 1, so a same-snapshot read would press "next" once; the code
instead observes selection 2 at the later read and presses "previous"
once — the two computations disagree, refuting the claim as stated. -/
theorem navigateToListItem_separate_read_cex :
    navigateToListItem mB envC 1 = Except.ok [Dir.prev] ∧
    navigateToListItemSpecAtomic mB envC 1 = Except.ok [Dir.next] ∧
    navigateToListItem mB envC 1 ≠ navigateToListItemSpecAtomic mB envC 1 := by
  have hprev : navDirs (2 : Int) 1 = [Dir.prev] := by
    unfold navDirs
    rw [if_neg (by decide), if_neg (by decide), prevLoop_replicate]
    decide
  have hnext : navDirs (0 : Int) 1 = [Dir.next] := by
    unfold navDirs
    rw [if_neg (by decide), if_pos (by decide), nextLoop_replicate]
    decide
  have e1 : navigateToListItem mB envC 1 = Except.ok (navDirs (2 : Int) 1) := rfl
  have e2 : navigateToListItemSpecAtomic mB envC 1 = Except.ok (navDirs (0 : Int) 1) := rfl
  rw [e1, e2, hprev, hnext]
  refine ⟨rfl, rfl, by simp⟩

/-- C2 amended: the selected-line index used to compute the key-press
count is read from the driver in a separate query immediately after the
successful poll attempt (time `t + 1`), not from the snapshot of the
successful attempt itself (time `t`); the press count is computed from
that later value together with the match index of the attempt's
snapshot. -/
theorem navigateToListItem_separate_read (matcher : Matcher) (env : Nat → Snapshot)
    (budget : Nat) (t : Nat)
    (h : retryPoll (fun u => attemptCheck matcher (env u).lines) 0 budget "" = Except.ok t) :
    navigateToListItem matcher env budget
      = Except.ok (navDirs (env (t + 1)).selectedLineIdx
          (scanMatches matcher (env t).lines).snd) := by
  unfold navigateToListItem
  rw [h]

/-- C2 witness: in `envC` the poll succeeds at time 0 and the presses are
computed from the selected index observed at time 1. -/
theorem navigateToListItem_separate_read_witness :
    retryPoll (fun u => attemptCheck mB (envC u).lines) 0 1 "" = Except.ok 0 ∧
    navigateToListItem mB envC 1
      = Except.ok (navDirs (envC 1).selectedLineIdx
          (scanMatches mB (envC 0).lines).snd) :=
  ⟨rfl, navigateToListItem_separate_read mB envC 1 0 rfl⟩

/-- C8 counterexample: the five panel-switch operations index
`JumpToBlock` at 0..4, so a table whose family has exactly four entries
satisfies the claim's "at least four entries" hypothesis while
`SwitchToStashWindow`'s index 4 falls out of bounds. -/
theorem jumpToBlock_four_entries_cex :
    4 ≤ inputFour.keys.Universal.JumpToBlock.length ∧
    inputFour.SwitchToStatusWindow.isSome = true ∧
    inputFour.SwitchToFilesWindow.isSome = true ∧
    inputFour.SwitchToBranchesWindow.isSome = true ∧
    inputFour.SwitchToCommitsWindow.isSome = true ∧
    inputFour.SwitchToStashWindow = none :=
  ⟨by decide, rfl, rfl, rfl, rfl, rfl⟩

/-- C8 amended: for every keybinding table whose "jump to block" family
has at least five entries, each of the five panel-switch operations
indexes the family within bounds. -/
theorem jumpToBlock_five_entries_in_bounds (self : Input)
    (h : 5 ≤ self.keys.Universal.JumpToBlock.length) :
    self.SwitchToStatusWindow.isSome = true ∧
    self.SwitchToFilesWindow.isSome = true ∧
    self.SwitchToBranchesWindow.isSome = true ∧
    self.SwitchToCommitsWindow.isSome = true ∧
    self.SwitchToStashWindow.isSome = true := by
  have hsome : ∀ i : Nat, i < self.keys.Universal.JumpToBlock.length →
      ∃ k, self.keys.Universal.JumpToBlock.get? i = some k := by
    intro i hi
    cases hg : self.keys.Universal.JumpToBlock.get? i with
    | none => rw [List.get?_eq_none] at hg; omega
    | some k => exact ⟨k, rfl⟩
  refine ⟨?_, ?_, ?_, ?_, ?_⟩
  · obtain ⟨k, hk⟩ := hsome 0 (by omega)
    unfold Input.SwitchToStatusWindow
    rw [hk]
    rfl
  · obtain ⟨k, hk⟩ := hsome 1 (by omega)
    unfold Input.SwitchToFilesWindow
    rw [hk]
    rfl
  · obtain ⟨k, hk⟩ := hsome 2 (by omega)
    unfold Input.SwitchToBranchesWindow
    rw [hk]
    rfl
  · obtain ⟨k, hk⟩ := hsome 3 (by omega)
    unfold Input.SwitchToCommitsWindow
    rw [hk]
    rfl
  · obtain ⟨k, hk⟩ := hsome 4 (by omega)
    unfold Input.SwitchToStashWindow
    rw [hk]
    rfl

/-- C8 witness: with the five-entry table `keysA` every panel switch is
in bounds. -/
theorem jumpToBlock_five_entries_in_bounds_witness :
    5 ≤ inputA.keys.Universal.JumpToBlock.length ∧
    inputA.SwitchToStashWindow.isSome = true :=
  ⟨by decide, (jumpToBlock_five_entries_in_bounds inputA (by decide)).2.2.2.2⟩

/-- C9: `Type` issues exactly one key press per character of the input,
in the input's order, and every press is immediately preceded by the
configured settle delay. -/
theorem type_one_press_per_char (self : Input) (content : String) :
    (self.Type' content).filterMap pressKeyOf
      = content.toList.map (fun c => String.singleton c) ∧
    waitBeforeEachPress self.pushKeyDelay (self.Type' content) := by
  constructor
  · unfold Input.Type'
    induction content.toList with
    | nil => simp
    | cons c rest ih =>
        rw [List.flatMap_cons, List.filterMap_append, ih, List.map_cons]
        rfl
  · exact waitBeforeEachPress_of_settled (settled_Type' self content)

/-- C10: `Enter` produces the same trace as `Confirm`, and
`ContinueRebase` the same trace as `ContinueMerge`, for every facade
state. -/
theorem enter_eq_confirm_and_continueRebase_eq_continueMerge (self : Input) :
    self.Enter = self.Confirm ∧ self.ContinueRebase = self.ContinueMerge :=
  ⟨rfl, rfl⟩

/-- C6: every key press delivered through the facade — direct presses,
typing, confirm/cancel/select, item movement, panel switches, and the
composite flows — is immediately preceded by a wait of the configured
settle delay, so sequential presses never fire faster than the
configured interval. -/
theorem facade_wait_before_press (self : Input) (keyStr : String) (keyStrs : List String)
    (content textToType : String) (title mcontent opt matcher : Matcher)
    (env : Nat → Snapshot) (budget : Nat) :
    waitBeforeEachPress self.pushKeyDelay (self.press keyStr) ∧
    waitBeforeEachPress self.pushKeyDelay (self.Press keyStrs) ∧
    waitBeforeEachPress self.pushKeyDelay (self.Type' content) ∧
    waitBeforeEachPress self.pushKeyDelay self.Confirm ∧
    waitBeforeEachPress self.pushKeyDelay self.Enter ∧
    waitBeforeEachPress self.pushKeyDelay self.Cancel ∧
    waitBeforeEachPress self.pushKeyDelay self.PrimaryAction ∧
    waitBeforeEachPress self.pushKeyDelay self.NextItem ∧
    waitBeforeEachPress self.pushKeyDelay self.PreviousItem ∧
    (∀ tr, self.SwitchToStatusWindow = some tr →
      waitBeforeEachPress self.pushKeyDelay tr) ∧
    (∀ tr, self.SwitchToFilesWindow = some tr →
      waitBeforeEachPress self.pushKeyDelay tr) ∧
    (∀ tr, self.SwitchToBranchesWindow = some tr →
      waitBeforeEachPress self.pushKeyDelay tr) ∧
    (∀ tr, self.SwitchToCommitsWindow = some tr →
      waitBeforeEachPress self.pushKeyDelay tr) ∧
    (∀ tr, self.SwitchToStashWindow = some tr →
      waitBeforeEachPress self.pushKeyDelay tr) ∧
    waitBeforeEachPress self.pushKeyDelay (self.AcceptConfirmation title mcontent) ∧
    waitBeforeEachPress self.pushKeyDelay (self.DenyConfirmation title mcontent) ∧
    waitBeforeEachPress self.pushKeyDelay (self.Prompt title textToType) ∧
    waitBeforeEachPress self.pushKeyDelay (self.Typeahead title textToType opt) ∧
    waitBeforeEachPress self.pushKeyDelay self.ContinueMerge ∧
    waitBeforeEachPress self.pushKeyDelay self.ContinueRebase ∧
    waitBeforeEachPress self.pushKeyDelay (self.Alert title mcontent) ∧
    (∀ tr, self.NavigateToListItemTrace matcher env budget = Except.ok tr →
      waitBeforeEachPress self.pushKeyDelay tr) ∧
    (∀ tr, self.Menu title opt env budget = Except.ok tr →
      waitBeforeEachPress self.pushKeyDelay tr) := by
  refine ⟨?_, ?_, ?_, ?_, ?_, ?_, ?_, ?_, ?_, ?_, ?_, ?_, ?_, ?_, ?_, ?_, ?_, ?_, ?_,
    ?_, ?_, ?_, ?_⟩
  · exact waitBeforeEachPress_of_settled (settled_press self keyStr)
  · exact waitBeforeEachPress_of_settled (settled_Press self keyStrs)
  · exact waitBeforeEachPress_of_settled (settled_Type' self content)
  · exact waitBeforeEachPress_of_settled (settled_press self _)
  · exact waitBeforeEachPress_of_settled (settled_press self _)
  · exact waitBeforeEachPress_of_settled (settled_press self _)
  · exact waitBeforeEachPress_of_settled (settled_press self _)
  · exact waitBeforeEachPress_of_settled (settled_press self _)
  · exact waitBeforeEachPress_of_settled (settled_press self _)
  · exact fun tr htr =>
      waitBeforeEachPress_of_settled (settled_switch_aux self 0 "status" tr htr)
  · exact fun tr htr =>
      waitBeforeEachPress_of_settled (settled_switch_aux self 1 "files" tr htr)
  · exact fun tr htr =>
      waitBeforeEachPress_of_settled (settled_switch_aux self 2 "localBranches" tr htr)
  · exact fun tr htr =>
      waitBeforeEachPress_of_settled (settled_switch_aux self 3 "commits" tr htr)
  · exact fun tr htr =>
      waitBeforeEachPress_of_settled (settled_switch_aux self 4 "stash" tr htr)
  · exact waitBeforeEachPress_of_settled
      (settled_append (settled_of_no_press (by simp [isPress])) (settled_press self _))
  · exact waitBeforeEachPress_of_settled
      (settled_append (settled_of_no_press (by simp [isPress])) (settled_press self _))
  · exact waitBeforeEachPress_of_settled
      (settled_append
        (settled_append (settled_of_no_press (by simp [isPress]))
          (settled_Type' self textToType))
        (settled_press self _))
  · exact waitBeforeEachPress_of_settled
      (settled_append
        (settled_append
          (settled_append
            (settled_append (settled_of_no_press (by simp [isPress]))
              (settled_Type' self textToType))
            (settled_Press self _))
          (settled_of_no_press (by simp [isPress])))
        (settled_press self _))
  · exact waitBeforeEachPress_of_settled
      (settled_append
        (settled_append (settled_Press self _) (settled_assert1 _))
        (settled_press self _))
  · exact waitBeforeEachPress_of_settled
      (settled_append
        (settled_append (settled_Press self _) (settled_assert1 _))
        (settled_press self _))
  · exact waitBeforeEachPress_of_settled
      (settled_append (settled_of_no_press (by simp [isPress])) (settled_press self _))
  · exact fun tr htr =>
      waitBeforeEachPress_of_settled (settled_navigateTrace self matcher env budget tr htr)
  · intro tr htr
    unfold Input.Menu at htr
    cases hN : self.NavigateToListItemTrace opt env budget with
    | error r => rw [hN] at htr; exact absurd htr (by simp [Except.map])
    | ok nav =>
        rw [hN] at htr
        have h3 : [Event.assertEv AssertionEv.inMenu,
            Event.assertEv (AssertionEv.currentViewTitle title.name)]
            ++ nav ++ self.Confirm = tr := by
          injection htr
        rw [← h3]
        exact waitBeforeEachPress_of_settled
          (settled_append
            (settled_append (settled_of_no_press (by simp [isPress]))
              (settled_navigateTrace self opt env budget nav hN))
            (settled_press self _))

/-- C6 witness: the panel-switch hypothesis is dischargeable — with the
five-entry table, `SwitchToStatusWindow` produces a trace and that trace
waits before its press. -/
theorem facade_wait_before_press_witness :
    ∃ tr, inputA.SwitchToStatusWindow = some tr ∧
      waitBeforeEachPress inputA.pushKeyDelay tr := by
  refine ⟨inputA.press "1"
    ++ [Event.assertEv (AssertionEv.currentWindowName "status")], rfl, ?_⟩
  have h := facade_wait_before_press inputA "x" [] "" "" mB mB mB mB (fun _ => snapA) 1
  exact h.2.2.2.2.2.2.2.2.2.1 _ rfl

/-- C7: each composite modal flow asserts the expected modal kind and the
expected title/content before any key press is sent: its trace has a
press-free prefix containing all those assertion events. -/
theorem flows_assert_before_press (self : Input) (title content opt : Matcher)
    (textToType : String) (env : Nat → Snapshot) (budget : Nat) :
    assertsBeforeAnyPress
      [Event.assertEv AssertionEv.inConfirm,
       Event.assertEv (AssertionEv.currentViewTitle title.name),
       Event.assertEv (AssertionEv.currentViewContent content.name)]
      (self.AcceptConfirmation title content) ∧
    assertsBeforeAnyPress
      [Event.assertEv AssertionEv.inConfirm,
       Event.assertEv (AssertionEv.currentViewTitle title.name),
       Event.assertEv (AssertionEv.currentViewContent content.name)]
      (self.DenyConfirmation title content) ∧
    assertsBeforeAnyPress
      [Event.assertEv AssertionEv.inPrompt,
       Event.assertEv (AssertionEv.currentViewTitle title.name)]
      (self.Prompt title textToType) ∧
    (∀ tr, self.Menu title opt env budget = Except.ok tr →
      assertsBeforeAnyPress
        [Event.assertEv AssertionEv.inMenu,
         Event.assertEv (AssertionEv.currentViewTitle title.name)]
        tr) := by
  refine ⟨?_, ?_, ?_, ?_⟩
  · exact ⟨_, self.Confirm, rfl, by simp [isPress], by simp⟩
  · exact ⟨_, self.Cancel, rfl, by simp [isPress], by simp⟩
  · refine ⟨[Event.assertEv AssertionEv.inPrompt,
      Event.assertEv (AssertionEv.currentViewTitle title.name)],
      self.Type' textToType ++ self.Confirm, ?_, by simp [isPress], by simp⟩
    unfold Input.Prompt
    rw [List.append_assoc]
  · intro tr htr
    unfold Input.Menu at htr
    cases hN : self.NavigateToListItemTrace opt env budget with
    | error r => rw [hN] at htr; exact absurd htr (by simp [Except.map])
    | ok nav =>
        rw [hN] at htr
        have h3 : [Event.assertEv AssertionEv.inMenu,
            Event.assertEv (AssertionEv.currentViewTitle title.name)]
            ++ nav ++ self.Confirm = tr := by
          injection htr
        refine ⟨[Event.assertEv AssertionEv.inMenu,
          Event.assertEv (AssertionEv.currentViewTitle title.name)],
          nav ++ self.Confirm, ?_, by simp [isPress], by simp⟩
        rw [← h3, List.append_assoc]

/-- C7 witness: over a constant environment whose selection is already on
the unique match, `Menu` succeeds and its trace has the required
press-free assertion prefix. -/
theorem flows_assert_before_press_witness :
    ∃ tr, inputA.Menu mB mB (fun _ => snapB) 1 = Except.ok tr ∧
      assertsBeforeAnyPress
        [Event.assertEv AssertionEv.inMenu,
         Event.assertEv (AssertionEv.currentViewTitle mB.name)]
        tr := by
  refine ⟨[Event.assertEv AssertionEv.inMenu,
      Event.assertEv (AssertionEv.currentViewTitle mB.name)]
      ++ ([Event.assertEv AssertionEv.inListContext]
        ++ ([] : List Event)
        ++ [Event.assertEv (AssertionEv.selectedLine mB.name)])
      ++ inputA.Confirm, ?_, ?_⟩
  · rfl
  · exact (flows_assert_before_press inputA mB mB mB "" (fun _ => snapB) 1).2.2.2 _ rfl

end LazygitInput
